import Mathlib

/-!
# The AST model of the Zig parser (`src/parser.hpp`)

A verification development over `src/src/parser.hpp`: the enumerations and node
structures of the abstract syntax tree, the correspondence between a node's
discriminant and the member of its payload union, the declared order of the
binary operators against the precedence levels of the grammar, and the
expression rule of the recursive-descent parser.

The header declares `ast_parse` without a body (the parser is generated by
`parsergen.cpp`), and the types `Buf`, `ZigList` and `Token` come from `buffer.hpp`,
`list.hpp` and `tokenizer.hpp`, outside the header. Whatever is taken from the
specification instead of the header says so in its doc comment.

* The enumerations and the members of every struct are transcribed from the header.
* `payload_member` relates the discriminants to the members of the union `AstNode::data`.
* `BinOpType.ordinal` and `BinOpType.level` relate the declared order of the binary
  operators to the precedence levels.
* `ast_parse_expression` is the expression rule of the parser, with its fourteen levels;
  `ast_parse_expression_total` shows that it answers on every token sequence.
-/

namespace ZigParser

/-! ## Enumerations of the header -/

/-- The discriminant of an AST node, `enum NodeType` (parser.hpp 21-64). -/
inductive NodeType where
  | NodeTypeRoot
  | NodeTypeRootExportDecl
  | NodeTypeFnProto
  | NodeTypeFnDef
  | NodeTypeFnDecl
  | NodeTypeParamDecl
  | NodeTypeType
  | NodeTypeBlock
  | NodeTypeExternBlock
  | NodeTypeDirective
  | NodeTypeReturnExpr
  | NodeTypeVariableDeclaration
  | NodeTypeBinOpExpr
  | NodeTypeCastExpr
  | NodeTypeNumberLiteral
  | NodeTypeStringLiteral
  | NodeTypeCharLiteral
  | NodeTypeUnreachable
  | NodeTypeSymbol
  | NodeTypePrefixOpExpr
  | NodeTypeFnCallExpr
  | NodeTypeArrayAccessExpr
  | NodeTypeSliceExpr
  | NodeTypeFieldAccessExpr
  | NodeTypeUse
  | NodeTypeVoid
  | NodeTypeBoolLiteral
  | NodeTypeNullLiteral
  | NodeTypeIfBoolExpr
  | NodeTypeIfVarExpr
  | NodeTypeWhileExpr
  | NodeTypeLabel
  | NodeTypeGoto
  | NodeTypeBreak
  | NodeTypeContinue
  | NodeTypeAsmExpr
  | NodeTypeStructDecl
  | NodeTypeStructField
  | NodeTypeStructValueExpr
  | NodeTypeStructValueField
  | NodeTypeCompilerFnExpr
  | NodeTypeCompilerFnType
  deriving DecidableEq, Repr, Fintype

/-- Visibility of a declaration, `enum VisibMod` (parser.hpp 70-74). -/
inductive VisibMod where
  | VisibModPrivate
  | VisibModPub
  | VisibModExport
  deriving DecidableEq, Repr, Fintype

/-- The shape of a type node, `enum AstNodeTypeType` (parser.hpp 99-105). -/
inductive AstNodeTypeType where
  | AstNodeTypeTypePrimitive
  | AstNodeTypeTypePointer
  | AstNodeTypeTypeArray
  | AstNodeTypeTypeMaybe
  | AstNodeTypeTypeCompilerExpr
  deriving DecidableEq, Repr, Fintype

/-- The binary operators, `enum BinOpType` (parser.hpp 135-169), in declared order. -/
inductive BinOpType where
  | BinOpTypeInvalid
  | BinOpTypeAssign
  | BinOpTypeAssignTimes
  | BinOpTypeAssignDiv
  | BinOpTypeAssignMod
  | BinOpTypeAssignPlus
  | BinOpTypeAssignMinus
  | BinOpTypeAssignBitShiftLeft
  | BinOpTypeAssignBitShiftRight
  | BinOpTypeAssignBitAnd
  | BinOpTypeAssignBitXor
  | BinOpTypeAssignBitOr
  | BinOpTypeAssignBoolAnd
  | BinOpTypeAssignBoolOr
  | BinOpTypeBoolOr
  | BinOpTypeBoolAnd
  | BinOpTypeCmpEq
  | BinOpTypeCmpNotEq
  | BinOpTypeCmpLessThan
  | BinOpTypeCmpGreaterThan
  | BinOpTypeCmpLessOrEq
  | BinOpTypeCmpGreaterOrEq
  | BinOpTypeBinOr
  | BinOpTypeBinXor
  | BinOpTypeBinAnd
  | BinOpTypeBitShiftLeft
  | BinOpTypeBitShiftRight
  | BinOpTypeAdd
  | BinOpTypeSub
  | BinOpTypeMult
  | BinOpTypeDiv
  | BinOpTypeMod
  | BinOpTypeUnwrapMaybe
  deriving DecidableEq, Repr, Fintype

/-- The unary operators, `enum PrefixOp` (parser.hpp 221-229). -/
inductive PrefixOp where
  | PrefixOpInvalid
  | PrefixOpBoolNot
  | PrefixOpBinNot
  | PrefixOpNegation
  | PrefixOpAddressOf
  | PrefixOpConstAddressOf
  | PrefixOpDereference
  deriving DecidableEq, Repr, Fintype

/-- The kinds of a number literal, `enum NumLit` (parser.hpp 318-332). The last
enumerator, `NumLitCount`, is the count of the kinds and not a kind. -/
inductive NumLit where
  | NumLitF32
  | NumLitF64
  | NumLitF128
  | NumLitU8
  | NumLitU16
  | NumLitU32
  | NumLitU64
  | NumLitI8
  | NumLitI16
  | NumLitI32
  | NumLitI64
  | NumLitCount
  deriving DecidableEq, Repr, Fintype

/-- The kinds of a fragment of an assembly template, `enum AsmTokenId`
(parser.hpp 415-419). -/
inductive AsmTokenId where
  | AsmTokenIdTemplate
  | AsmTokenIdPercent
  | AsmTokenIdVar
  deriving DecidableEq, Repr, Fintype

/-- The value C gives an enumerator of `BinOpType`: its position in the
declaration, counted from zero (no enumerator has an initialiser). -/
def BinOpType.ordinal : BinOpType → Nat
  | BinOpTypeInvalid => 0
  | BinOpTypeAssign => 1
  | BinOpTypeAssignTimes => 2
  | BinOpTypeAssignDiv => 3
  | BinOpTypeAssignMod => 4
  | BinOpTypeAssignPlus => 5
  | BinOpTypeAssignMinus => 6
  | BinOpTypeAssignBitShiftLeft => 7
  | BinOpTypeAssignBitShiftRight => 8
  | BinOpTypeAssignBitAnd => 9
  | BinOpTypeAssignBitXor => 10
  | BinOpTypeAssignBitOr => 11
  | BinOpTypeAssignBoolAnd => 12
  | BinOpTypeAssignBoolOr => 13
  | BinOpTypeBoolOr => 14
  | BinOpTypeBoolAnd => 15
  | BinOpTypeCmpEq => 16
  | BinOpTypeCmpNotEq => 17
  | BinOpTypeCmpLessThan => 18
  | BinOpTypeCmpGreaterThan => 19
  | BinOpTypeCmpLessOrEq => 20
  | BinOpTypeCmpGreaterOrEq => 21
  | BinOpTypeBinOr => 22
  | BinOpTypeBinXor => 23
  | BinOpTypeBinAnd => 24
  | BinOpTypeBitShiftLeft => 25
  | BinOpTypeBitShiftRight => 26
  | BinOpTypeAdd => 27
  | BinOpTypeSub => 28
  | BinOpTypeMult => 29
  | BinOpTypeDiv => 30
  | BinOpTypeMod => 31
  | BinOpTypeUnwrapMaybe => 32

/-- The precedence level the specification gives a binary operator (section 4.4,
lowest to highest): 1 the assignment forms, 2 boolean OR, 3 boolean AND, 4 the
comparisons, 5 bitwise OR, 6 bitwise XOR, 7 bitwise AND, 8 the shifts, 9 additive,
10 multiplicative, 11 optional-unwrap. This definition follows the words of the
specification, not the header; `BinOpTypeInvalid` denotes no operator and gets 0. -/
def BinOpType.level : BinOpType → Nat
  | BinOpTypeInvalid => 0
  | BinOpTypeAssign => 1
  | BinOpTypeAssignTimes => 1
  | BinOpTypeAssignDiv => 1
  | BinOpTypeAssignMod => 1
  | BinOpTypeAssignPlus => 1
  | BinOpTypeAssignMinus => 1
  | BinOpTypeAssignBitShiftLeft => 1
  | BinOpTypeAssignBitShiftRight => 1
  | BinOpTypeAssignBitAnd => 1
  | BinOpTypeAssignBitXor => 1
  | BinOpTypeAssignBitOr => 1
  | BinOpTypeAssignBoolAnd => 1
  | BinOpTypeAssignBoolOr => 1
  | BinOpTypeBoolOr => 2
  | BinOpTypeBoolAnd => 3
  | BinOpTypeCmpEq => 4
  | BinOpTypeCmpNotEq => 4
  | BinOpTypeCmpLessThan => 4
  | BinOpTypeCmpGreaterThan => 4
  | BinOpTypeCmpLessOrEq => 4
  | BinOpTypeCmpGreaterOrEq => 4
  | BinOpTypeBinOr => 5
  | BinOpTypeBinXor => 6
  | BinOpTypeBinAnd => 7
  | BinOpTypeBitShiftLeft => 8
  | BinOpTypeBitShiftRight => 8
  | BinOpTypeAdd => 9
  | BinOpTypeSub => 9
  | BinOpTypeMult => 10
  | BinOpTypeDiv => 10
  | BinOpTypeMod => 10
  | BinOpTypeUnwrapMaybe => 11

/-! ## The structs of the header, as declared -/

/-- The structs of parser.hpp. -/
inductive StructName where
  | AstNodeRoot
  | AstNodeFnProto
  | AstNodeFnDef
  | AstNodeFnDecl
  | AstNodeParamDecl
  | AstNodeType
  | AstNodeBlock
  | AstNodeReturnExpr
  | AstNodeVariableDeclaration
  | AstNodeBinOpExpr
  | AstNodeFnCallExpr
  | AstNodeArrayAccessExpr
  | AstNodeSliceExpr
  | AstNodeFieldAccessExpr
  | AstNodeExternBlock
  | AstNodeDirective
  | AstNodeRootExportDecl
  | AstNodeCastExpr
  | AstNodePrefixOpExpr
  | AstNodeUse
  | AstNodeIfBoolExpr
  | AstNodeIfVarExpr
  | AstNodeWhileExpr
  | AstNodeLabel
  | AstNodeGoto
  | AsmOutput
  | AsmInput
  | SrcPos
  | AstNodeAsmExpr
  | AstNodeStructDecl
  | AstNodeStructField
  | AstNodeStringLiteral
  | AstNodeCharLiteral
  | AstNodeNumberLiteral
  | AstNodeStructValueField
  | AstNodeStructValueExpr
  | AstNodeCompilerFnExpr
  | AstNodeCompilerFnType
  | AstNode
  | AsmToken
  deriving DecidableEq, Repr, Fintype

/-- The members a struct of parser.hpp declares, in declared order, each as the pair of its
C type and its name, transcribed from the header (an anonymous union member is listed with
the type `union`). -/
def struct_members : StructName → List (String × String)
  | .AstNodeRoot =>  -- parser.hpp 66-68
    [("ZigList<AstNode *>", "top_level_decls")]
  | .AstNodeFnProto =>  -- parser.hpp 76-83
    [("ZigList<AstNode *> *", "directives"),
     ("VisibMod", "visib_mod"),
     ("Buf", "name"),
     ("ZigList<AstNode *>", "params"),
     ("AstNode *", "return_type"),
     ("bool", "is_var_args")]
  | .AstNodeFnDef =>  -- parser.hpp 85-88
    [("AstNode *", "fn_proto"),
     ("AstNode *", "body")]
  | .AstNodeFnDecl =>  -- parser.hpp 90-92
    [("AstNode *", "fn_proto")]
  | .AstNodeParamDecl =>  -- parser.hpp 94-97
    [("Buf", "name"),
     ("AstNode *", "type")]
  | .AstNodeType =>  -- parser.hpp 107-115
    [("AstNodeTypeType", "type"),
     ("Buf", "primitive_name"),
     ("AstNode *", "child_type"),
     ("AstNode *", "array_size"),
     ("bool", "is_const"),
     ("bool", "is_noalias"),
     ("AstNode *", "compiler_expr")]
  | .AstNodeBlock =>  -- parser.hpp 117-119
    [("ZigList<AstNode *>", "statements")]
  | .AstNodeReturnExpr =>  -- parser.hpp 121-124
    [("AstNode *", "expr")]
  | .AstNodeVariableDeclaration =>  -- parser.hpp 126-133
    [("Buf", "symbol"),
     ("bool", "is_const"),
     ("VisibMod", "visib_mod"),
     ("AstNode *", "type"),
     ("AstNode *", "expr")]
  | .AstNodeBinOpExpr =>  -- parser.hpp 171-175
    [("AstNode *", "op1"),
     ("BinOpType", "bin_op"),
     ("AstNode *", "op2")]
  | .AstNodeFnCallExpr =>  -- parser.hpp 177-181
    [("AstNode *", "fn_ref_expr"),
     ("ZigList<AstNode *>", "params"),
     ("bool", "is_builtin")]
  | .AstNodeArrayAccessExpr =>  -- parser.hpp 183-186
    [("AstNode *", "array_ref_expr"),
     ("AstNode *", "subscript")]
  | .AstNodeSliceExpr =>  -- parser.hpp 188-193
    [("AstNode *", "array_ref_expr"),
     ("AstNode *", "start"),
     ("AstNode *", "end"),
     ("bool", "is_const")]
  | .AstNodeFieldAccessExpr =>  -- parser.hpp 195-198
    [("AstNode *", "struct_expr"),
     ("Buf", "field_name")]
  | .AstNodeExternBlock =>  -- parser.hpp 200-203
    [("ZigList<AstNode *> *", "directives"),
     ("ZigList<AstNode *>", "fn_decls")]
  | .AstNodeDirective =>  -- parser.hpp 205-208
    [("Buf", "name"),
     ("Buf", "param")]
  | .AstNodeRootExportDecl =>  -- parser.hpp 210-214
    [("Buf", "type"),
     ("Buf", "name"),
     ("ZigList<AstNode *> *", "directives")]
  | .AstNodeCastExpr =>  -- parser.hpp 216-219
    [("AstNode *", "expr"),
     ("AstNode *", "type")]
  | .AstNodePrefixOpExpr =>  -- parser.hpp 231-234
    [("PrefixOp", "prefix_op"),
     ("AstNode *", "primary_expr")]
  | .AstNodeUse =>  -- parser.hpp 236-239
    [("Buf", "path"),
     ("ZigList<AstNode *> *", "directives")]
  | .AstNodeIfBoolExpr =>  -- parser.hpp 241-245
    [("AstNode *", "condition"),
     ("AstNode *", "then_block"),
     ("AstNode *", "else_node")]
  | .AstNodeIfVarExpr =>  -- parser.hpp 247-251
    [("AstNodeVariableDeclaration", "var_decl"),
     ("AstNode *", "then_block"),
     ("AstNode *", "else_node")]
  | .AstNodeWhileExpr =>  -- parser.hpp 253-256
    [("AstNode *", "condition"),
     ("AstNode *", "body")]
  | .AstNodeLabel =>  -- parser.hpp 258-260
    [("Buf", "name")]
  | .AstNodeGoto =>  -- parser.hpp 262-264
    [("Buf", "name")]
  | .AsmOutput =>  -- parser.hpp 266-271
    [("Buf", "asm_symbolic_name"),
     ("Buf", "constraint"),
     ("Buf", "variable_name"),
     ("AstNode *", "return_type")]
  | .AsmInput =>  -- parser.hpp 273-277
    [("Buf", "asm_symbolic_name"),
     ("Buf", "constraint"),
     ("AstNode *", "expr")]
  | .SrcPos =>  -- parser.hpp 279-282
    [("int", "line"),
     ("int", "column")]
  | .AstNodeAsmExpr =>  -- parser.hpp 284-293
    [("bool", "is_volatile"),
     ("Buf", "asm_template"),
     ("ZigList<SrcPos>", "offset_map"),
     ("ZigList<AsmToken>", "token_list"),
     ("ZigList<AsmOutput*>", "output_list"),
     ("ZigList<AsmInput*>", "input_list"),
     ("ZigList<Buf*>", "clobber_list"),
     ("int", "return_count")]
  | .AstNodeStructDecl =>  -- parser.hpp 295-301
    [("Buf", "name"),
     ("ZigList<AstNode *>", "fields"),
     ("ZigList<AstNode *>", "fns"),
     ("ZigList<AstNode *> *", "directives"),
     ("VisibMod", "visib_mod")]
  | .AstNodeStructField =>  -- parser.hpp 303-307
    [("Buf", "name"),
     ("AstNode *", "type"),
     ("ZigList<AstNode *> *", "directives")]
  | .AstNodeStringLiteral =>  -- parser.hpp 309-312
    [("Buf", "buf"),
     ("bool", "c")]
  | .AstNodeCharLiteral =>  -- parser.hpp 314-316
    [("uint8_t", "value")]
  | .AstNodeNumberLiteral =>  -- parser.hpp 334-346
    [("NumLit", "kind"),
     ("bool", "overflow"),
     ("union", "data")]
  | .AstNodeStructValueField =>  -- parser.hpp 348-351
    [("Buf", "name"),
     ("AstNode *", "expr")]
  | .AstNodeStructValueExpr =>  -- parser.hpp 353-356
    [("AstNode *", "type"),
     ("ZigList<AstNode *>", "fields")]
  | .AstNodeCompilerFnExpr =>  -- parser.hpp 358-361
    [("Buf", "name"),
     ("AstNode *", "expr")]
  | .AstNodeCompilerFnType =>  -- parser.hpp 363-366
    [("Buf", "name"),
     ("AstNode *", "type")]
  | .AstNode =>  -- parser.hpp 368-413
    [("enum NodeType", "type"),
     ("int", "line"),
     ("int", "column"),
     ("CodeGenNode *", "codegen_node"),
     ("ImportTableEntry *", "owner"),
     ("union", "data")]
  | .AsmToken =>  -- parser.hpp 421-425
    [("enum AsmTokenId", "id"),
     ("int", "start"),
     ("int", "end")]

/-- Whether a struct of the header declares a member `directives` of type
`ZigList<AstNode *> *`, the place where the directive sequence of a declaration is kept. -/
def has_directives (s : StructName) : Bool :=
  decide (("ZigList<AstNode *> *", "directives") ∈ struct_members s)

/-- Whether a struct of the header declares a member of the given name. -/
def has_member (s : StructName) (name : String) : Bool :=
  decide (name ∈ (struct_members s).map Prod.snd)

/-- The members of the anonymous union `AstNode::data` (parser.hpp 374-412), in declared
order and under their declared names. -/
inductive DataMember where
  | root
  | root_export_decl
  | fn_def
  | fn_decl
  | fn_proto
  | type
  | param_decl
  | block
  | return_expr
  | variable_declaration
  | bin_op_expr
  | extern_block
  | directive
  | cast_expr
  | prefix_op_expr
  | fn_call_expr
  | array_access_expr
  | slice_expr
  | use
  | if_bool_expr
  | if_var_expr
  | while_expr
  | label
  | go_to
  | asm_expr
  | field_access_expr
  | struct_decl
  | struct_field
  | string_literal
  | char_literal
  | number_literal
  | struct_val_expr
  | struct_val_field
  | compiler_fn_expr
  | compiler_fn_type
  | symbol
  | bool_literal
  deriving DecidableEq, Repr, Fintype

/-- The member of `AstNode::data` that belongs to a discriminant: the member whose struct
carries the discriminant's name (`NodeTypeFnProto` goes with `fn_proto` of type
`AstNodeFnProto`, `NodeTypeGoto` with `go_to` of type `AstNodeGoto`), `symbol` for
`NodeTypeSymbol` and `bool_literal` for `NodeTypeBoolLiteral`. The header declares no struct
and no member for `NodeTypeUnreachable`, `NodeTypeVoid`, `NodeTypeNullLiteral`,
`NodeTypeBreak` and `NodeTypeContinue`. -/
def payload_member : NodeType → Option DataMember
  | .NodeTypeRoot => some .root
  | .NodeTypeRootExportDecl => some .root_export_decl
  | .NodeTypeFnProto => some .fn_proto
  | .NodeTypeFnDef => some .fn_def
  | .NodeTypeFnDecl => some .fn_decl
  | .NodeTypeParamDecl => some .param_decl
  | .NodeTypeType => some .type
  | .NodeTypeBlock => some .block
  | .NodeTypeExternBlock => some .extern_block
  | .NodeTypeDirective => some .directive
  | .NodeTypeReturnExpr => some .return_expr
  | .NodeTypeVariableDeclaration => some .variable_declaration
  | .NodeTypeBinOpExpr => some .bin_op_expr
  | .NodeTypeCastExpr => some .cast_expr
  | .NodeTypeNumberLiteral => some .number_literal
  | .NodeTypeStringLiteral => some .string_literal
  | .NodeTypeCharLiteral => some .char_literal
  | .NodeTypeUnreachable => none
  | .NodeTypeSymbol => some .symbol
  | .NodeTypePrefixOpExpr => some .prefix_op_expr
  | .NodeTypeFnCallExpr => some .fn_call_expr
  | .NodeTypeArrayAccessExpr => some .array_access_expr
  | .NodeTypeSliceExpr => some .slice_expr
  | .NodeTypeFieldAccessExpr => some .field_access_expr
  | .NodeTypeUse => some .use
  | .NodeTypeVoid => none
  | .NodeTypeBoolLiteral => some .bool_literal
  | .NodeTypeNullLiteral => none
  | .NodeTypeIfBoolExpr => some .if_bool_expr
  | .NodeTypeIfVarExpr => some .if_var_expr
  | .NodeTypeWhileExpr => some .while_expr
  | .NodeTypeLabel => some .label
  | .NodeTypeGoto => some .go_to
  | .NodeTypeBreak => none
  | .NodeTypeContinue => none
  | .NodeTypeAsmExpr => some .asm_expr
  | .NodeTypeStructDecl => some .struct_decl
  | .NodeTypeStructField => some .struct_field
  | .NodeTypeStructValueExpr => some .struct_val_expr
  | .NodeTypeStructValueField => some .struct_val_field
  | .NodeTypeCompilerFnExpr => some .compiler_fn_expr
  | .NodeTypeCompilerFnType => some .compiler_fn_type

/-- The discriminant a member of `AstNode::data` belongs to, by the same correspondence of
names read from the member's side. -/
def member_node_type : DataMember → NodeType
  | .root => .NodeTypeRoot
  | .root_export_decl => .NodeTypeRootExportDecl
  | .fn_def => .NodeTypeFnDef
  | .fn_decl => .NodeTypeFnDecl
  | .fn_proto => .NodeTypeFnProto
  | .type => .NodeTypeType
  | .param_decl => .NodeTypeParamDecl
  | .block => .NodeTypeBlock
  | .return_expr => .NodeTypeReturnExpr
  | .variable_declaration => .NodeTypeVariableDeclaration
  | .bin_op_expr => .NodeTypeBinOpExpr
  | .extern_block => .NodeTypeExternBlock
  | .directive => .NodeTypeDirective
  | .cast_expr => .NodeTypeCastExpr
  | .prefix_op_expr => .NodeTypePrefixOpExpr
  | .fn_call_expr => .NodeTypeFnCallExpr
  | .array_access_expr => .NodeTypeArrayAccessExpr
  | .slice_expr => .NodeTypeSliceExpr
  | .use => .NodeTypeUse
  | .if_bool_expr => .NodeTypeIfBoolExpr
  | .if_var_expr => .NodeTypeIfVarExpr
  | .while_expr => .NodeTypeWhileExpr
  | .label => .NodeTypeLabel
  | .go_to => .NodeTypeGoto
  | .asm_expr => .NodeTypeAsmExpr
  | .field_access_expr => .NodeTypeFieldAccessExpr
  | .struct_decl => .NodeTypeStructDecl
  | .struct_field => .NodeTypeStructField
  | .string_literal => .NodeTypeStringLiteral
  | .char_literal => .NodeTypeCharLiteral
  | .number_literal => .NodeTypeNumberLiteral
  | .struct_val_expr => .NodeTypeStructValueExpr
  | .struct_val_field => .NodeTypeStructValueField
  | .compiler_fn_expr => .NodeTypeCompilerFnExpr
  | .compiler_fn_type => .NodeTypeCompilerFnType
  | .symbol => .NodeTypeSymbol
  | .bool_literal => .NodeTypeBoolLiteral


/-! ## The node structures -/

/-- Modelled from the spec: `Buf` of buffer.hpp, which the header only includes: the owned
string or byte buffer that holds names and literals (section 9). -/
abbrev Buf := String

/-- The struct `CodeGenNode`, declared without a definition (parser.hpp 17): the annotation a
later phase attaches to a node, kept as a handle. -/
abbrev CodeGenNode := Nat

/-- The struct `ImportTableEntry`, declared without a definition (parser.hpp 18): the
compilation unit that owns a tree, kept as a handle. -/
abbrev ImportTableEntry := Nat

/-- `struct SrcPos` (parser.hpp 279-282). -/
structure SrcPos where
  line : Int
  column : Int
  deriving DecidableEq, Repr

/-- `struct AsmToken` (parser.hpp 421-425); `end_` is the member `end`. -/
structure AsmToken where
  id : AsmTokenId
  start : Int
  end_ : Int
  deriving DecidableEq, Repr

/-- The anonymous union `AstNodeNumberLiteral::data` (parser.hpp 341-345): the member that
was written. A `uint64_t` is a natural number, an `int64_t` an integer; the `double` of
`x_float` is kept as its 64-bit pattern. -/
inductive NumLitData where
  | x_uint (v : Nat)
  | x_int (v : Int)
  | x_float (bits : Nat)
  deriving DecidableEq, Repr

/-- `struct AstNodeNumberLiteral` (parser.hpp 334-346). -/
structure AstNodeNumberLiteral where
  kind : NumLit
  overflow : Bool
  data : NumLitData
  deriving DecidableEq, Repr

/-- `struct AstNodeStringLiteral` (parser.hpp 309-312). -/
structure AstNodeStringLiteral where
  buf : Buf
  c : Bool
  deriving DecidableEq, Repr

/-- `struct AstNodeCharLiteral` (parser.hpp 314-316); `value` is a `uint8_t`. -/
structure AstNodeCharLiteral where
  value : Nat
  deriving DecidableEq, Repr

mutual
/-- `struct AstNode` (parser.hpp 368-413): the discriminant, the source position, the slot
of the code generator, the owner, and the union `data`. The union is kept as the member
that was written, if any: the struct stores the discriminant and the payload side by side,
and nothing in it ties the one to the other. A pointer is an `Option` where the header or
the shape of the variant leaves it null in some nodes (`AstNodeType`, the return value, the
type and the initialiser of a variable, an else branch, the end of a slice, a return type);
a `ZigList` is a list, also behind a pointer. -/
inductive AstNode where
  | mk (type : NodeType) (line column : Int) (codegen_node : Option CodeGenNode)
      (owner : ImportTableEntry) (data : Option AstNodeData)
/-- `struct AstNodeVariableDeclaration` (parser.hpp 126-133). -/
inductive AstNodeVariableDeclaration where
  | mk (symbol : Buf) (is_const : Bool) (visib_mod : VisibMod)
      (type expr : Option AstNode)
/-- `struct AsmOutput` (parser.hpp 266-271). -/
inductive AsmOutput where
  | mk (asm_symbolic_name constraint variable_name : Buf) (return_type : Option AstNode)
/-- `struct AsmInput` (parser.hpp 273-277). -/
inductive AsmInput where
  | mk (asm_symbolic_name constraint : Buf) (expr : AstNode)
/-- The union `AstNode::data` (parser.hpp 374-412): one constructor for each member, named
as the member and holding the members of its struct in declared order. -/
inductive AstNodeData where
  | root (top_level_decls : List AstNode)
  | root_export_decl (type name : Buf) (directives : List AstNode)
  | fn_def (fn_proto body : AstNode)
  | fn_decl (fn_proto : AstNode)
  | fn_proto (directives : List AstNode) (visib_mod : VisibMod) (name : Buf)
      (params : List AstNode) (return_type : Option AstNode) (is_var_args : Bool)
  | type (type : AstNodeTypeType) (primitive_name : Buf) (child_type array_size : Option AstNode)
      (is_const is_noalias : Bool) (compiler_expr : Option AstNode)
  | param_decl (name : Buf) (type : AstNode)
  | block (statements : List AstNode)
  | return_expr (expr : Option AstNode)
  | variable_declaration (decl : AstNodeVariableDeclaration)
  | bin_op_expr (op1 : AstNode) (bin_op : BinOpType) (op2 : AstNode)
  | extern_block (directives : List AstNode) (fn_decls : List AstNode)
  | directive (name param : Buf)
  | cast_expr (expr type : AstNode)
  | prefix_op_expr (prefix_op : PrefixOp) (primary_expr : AstNode)
  | fn_call_expr (fn_ref_expr : AstNode) (params : List AstNode) (is_builtin : Bool)
  | array_access_expr (array_ref_expr subscript : AstNode)
  | slice_expr (array_ref_expr start : AstNode) (end_ : Option AstNode) (is_const : Bool)
  | use (path : Buf) (directives : List AstNode)
  | if_bool_expr (condition then_block : AstNode) (else_node : Option AstNode)
  | if_var_expr (var_decl : AstNodeVariableDeclaration) (then_block : AstNode)
      (else_node : Option AstNode)
  | while_expr (condition body : AstNode)
  | label (name : Buf)
  | go_to (name : Buf)
  | asm_expr (is_volatile : Bool) (asm_template : Buf) (offset_map : List SrcPos)
      (token_list : List AsmToken) (output_list : List AsmOutput)
      (input_list : List AsmInput) (clobber_list : List Buf) (return_count : Int)
  | field_access_expr (struct_expr : AstNode) (field_name : Buf)
  | struct_decl (name : Buf) (fields fns directives : List AstNode) (visib_mod : VisibMod)
  | struct_field (name : Buf) (type : AstNode) (directives : List AstNode)
  | string_literal (lit : AstNodeStringLiteral)
  | char_literal (lit : AstNodeCharLiteral)
  | number_literal (lit : AstNodeNumberLiteral)
  | struct_val_expr (type : AstNode) (fields : List AstNode)
  | struct_val_field (name : Buf) (expr : AstNode)
  | compiler_fn_expr (name : Buf) (expr : AstNode)
  | compiler_fn_type (name : Buf) (type : AstNode)
  | symbol (symbol : Buf)
  | bool_literal (bool_literal : Bool)
end

/-- The member `type` of a node. -/
def AstNode.type : AstNode → NodeType
  | .mk t _ _ _ _ _ => t

/-- The member `line` of a node. -/
def AstNode.line : AstNode → Int
  | .mk _ l _ _ _ _ => l

/-- The member `column` of a node. -/
def AstNode.column : AstNode → Int
  | .mk _ _ c _ _ _ => c

/-- The member `codegen_node` of a node. -/
def AstNode.codegen_node : AstNode → Option CodeGenNode
  | .mk _ _ _ g _ _ => g

/-- The member `owner` of a node. -/
def AstNode.owner : AstNode → ImportTableEntry
  | .mk _ _ _ _ o _ => o

/-- The union `data` of a node: the member that was written, if any. -/
def AstNode.data : AstNode → Option AstNodeData
  | .mk _ _ _ _ _ d => d

/-- The member of the union that a payload occupies. -/
def AstNodeData.member : AstNodeData → DataMember
  | .root .. => .root
  | .root_export_decl .. => .root_export_decl
  | .fn_def .. => .fn_def
  | .fn_decl .. => .fn_decl
  | .fn_proto .. => .fn_proto
  | .type .. => .type
  | .param_decl .. => .param_decl
  | .block .. => .block
  | .return_expr .. => .return_expr
  | .variable_declaration .. => .variable_declaration
  | .bin_op_expr .. => .bin_op_expr
  | .extern_block .. => .extern_block
  | .directive .. => .directive
  | .cast_expr .. => .cast_expr
  | .prefix_op_expr .. => .prefix_op_expr
  | .fn_call_expr .. => .fn_call_expr
  | .array_access_expr .. => .array_access_expr
  | .slice_expr .. => .slice_expr
  | .use .. => .use
  | .if_bool_expr .. => .if_bool_expr
  | .if_var_expr .. => .if_var_expr
  | .while_expr .. => .while_expr
  | .label .. => .label
  | .go_to .. => .go_to
  | .asm_expr .. => .asm_expr
  | .field_access_expr .. => .field_access_expr
  | .struct_decl .. => .struct_decl
  | .struct_field .. => .struct_field
  | .string_literal .. => .string_literal
  | .char_literal .. => .char_literal
  | .number_literal .. => .number_literal
  | .struct_val_expr .. => .struct_val_expr
  | .struct_val_field .. => .struct_val_field
  | .compiler_fn_expr .. => .compiler_fn_expr
  | .compiler_fn_type .. => .compiler_fn_type
  | .symbol .. => .symbol
  | .bool_literal .. => .bool_literal

/-- The payload of a node is the one of its discriminant: the member written in `data` is
the member the discriminant goes with, and nothing is written where the discriminant has no
member. -/
def AstNode.payload_matches (n : AstNode) : Prop :=
  n.data.map AstNodeData.member = payload_member n.type

instance (n : AstNode) : Decidable n.payload_matches := by
  unfold AstNode.payload_matches
  infer_instance

/-- A node as the struct lets one be laid out whatever the discriminant: discriminant
`NodeTypeRoot`, with the member `symbol` written in `data`. -/
def mismatched_node : AstNode :=
  .mk .NodeTypeRoot 1 1 none 0 (some (.symbol "main"))

/-! ## The expression rule of the parser -/

/-- Modelled from the spec: the kinds of token the expression rule reads. The header only
includes `tokenizer.hpp`; the specification fixes a token as a kind, a source line and column
and, for literals and identifiers, a lexeme (section 6), and names the operators of the
fourteen expression levels (section 4.4). There is one kind for each binary operator of
`BinOpType`, with `&`, `-` and `*` shared between a binary and a prefix operator, and one
for each literal, keyword and delimiter of the postfix and primary levels. -/
inductive TokenId where
  | TokenIdSymbol
  | TokenIdNumberLiteral
  | TokenIdStringLiteral
  | TokenIdCharLiteral
  | TokenIdKeywordTrue
  | TokenIdKeywordFalse
  | TokenIdKeywordNull
  | TokenIdKeywordVoid
  | TokenIdKeywordUnreachable
  | TokenIdKeywordConst
  | TokenIdLParen
  | TokenIdRParen
  | TokenIdLBracket
  | TokenIdRBracket
  | TokenIdLBrace
  | TokenIdRBrace
  | TokenIdComma
  | TokenIdDot
  | TokenIdEllipsis
  | TokenIdSemicolon
  | TokenIdEq
  | TokenIdTimesEq
  | TokenIdDivEq
  | TokenIdModEq
  | TokenIdPlusEq
  | TokenIdMinusEq
  | TokenIdBitShiftLeftEq
  | TokenIdBitShiftRightEq
  | TokenIdBitAndEq
  | TokenIdBitXorEq
  | TokenIdBitOrEq
  | TokenIdBoolAndEq
  | TokenIdBoolOrEq
  | TokenIdBoolOr
  | TokenIdBoolAnd
  | TokenIdCmpEq
  | TokenIdCmpNotEq
  | TokenIdCmpLessThan
  | TokenIdCmpGreaterThan
  | TokenIdCmpLessOrEq
  | TokenIdCmpGreaterOrEq
  | TokenIdBinOr
  | TokenIdBinXor
  | TokenIdAmpersand
  | TokenIdBitShiftLeft
  | TokenIdBitShiftRight
  | TokenIdPlus
  | TokenIdDash
  | TokenIdStar
  | TokenIdSlash
  | TokenIdPercent
  | TokenIdDoubleQuestion
  | TokenIdBang
  | TokenIdTilde
  deriving DecidableEq, Repr, Fintype

/-- Modelled from the spec: a token of the token source (`Token` of tokenizer.hpp, which the
header only includes): its kind, its source line and column, and its lexeme (section 6). -/
structure Token where
  id : TokenId
  line : Int
  column : Int
  lexeme : Buf
  deriving DecidableEq, Repr

/-- Modelled from the spec: what the parser is handed besides the tokens: the owner that
every node is stamped with, and the literal classifier (section 4.2) together with the
readers of a string and a character lexeme, which the header does not declare. The
expression rule only stores what they return. -/
structure ParseContext where
  owner : ImportTableEntry
  number_literal : Buf → AstNodeNumberLiteral
  string_literal : Buf → AstNodeStringLiteral
  char_literal : Buf → AstNodeCharLiteral

/-- Modelled from the spec: the outcome of a rule of the parser: a node and the tokens not
yet read, or the syntax error `ast_token_error` reports (parser.hpp 428), which is fatal and
leaves no tree (section 4.4, error policy). The error is reported at the token that does not
fit, or at the end of the stream (no token) when the tokens ran out. The third outcome
belongs to the model alone: the recursion of the rules is bounded by a counter. -/
inductive ParseResult where
  | ok (node : AstNode) (rest : List Token)
  | syntax_error (token : Option Token)
  | out_of_fuel

/-- Modelled from the spec: a new node of the given discriminant, stamped with a source
position and the owner, its slot for the code generator empty (section 3). -/
def ast_create_node (pc : ParseContext) (type : NodeType) (line column : Int)
    (data : Option AstNodeData) : AstNode :=
  .mk type line column none pc.owner data

/-- Modelled from the spec: the binary operator a token denotes, `BinOpTypeInvalid` for a
token that is no binary operator. -/
def tok_to_bin_op : TokenId → BinOpType
  | .TokenIdEq => .BinOpTypeAssign
  | .TokenIdTimesEq => .BinOpTypeAssignTimes
  | .TokenIdDivEq => .BinOpTypeAssignDiv
  | .TokenIdModEq => .BinOpTypeAssignMod
  | .TokenIdPlusEq => .BinOpTypeAssignPlus
  | .TokenIdMinusEq => .BinOpTypeAssignMinus
  | .TokenIdBitShiftLeftEq => .BinOpTypeAssignBitShiftLeft
  | .TokenIdBitShiftRightEq => .BinOpTypeAssignBitShiftRight
  | .TokenIdBitAndEq => .BinOpTypeAssignBitAnd
  | .TokenIdBitXorEq => .BinOpTypeAssignBitXor
  | .TokenIdBitOrEq => .BinOpTypeAssignBitOr
  | .TokenIdBoolAndEq => .BinOpTypeAssignBoolAnd
  | .TokenIdBoolOrEq => .BinOpTypeAssignBoolOr
  | .TokenIdBoolOr => .BinOpTypeBoolOr
  | .TokenIdBoolAnd => .BinOpTypeBoolAnd
  | .TokenIdCmpEq => .BinOpTypeCmpEq
  | .TokenIdCmpNotEq => .BinOpTypeCmpNotEq
  | .TokenIdCmpLessThan => .BinOpTypeCmpLessThan
  | .TokenIdCmpGreaterThan => .BinOpTypeCmpGreaterThan
  | .TokenIdCmpLessOrEq => .BinOpTypeCmpLessOrEq
  | .TokenIdCmpGreaterOrEq => .BinOpTypeCmpGreaterOrEq
  | .TokenIdBinOr => .BinOpTypeBinOr
  | .TokenIdBinXor => .BinOpTypeBinXor
  | .TokenIdAmpersand => .BinOpTypeBinAnd
  | .TokenIdBitShiftLeft => .BinOpTypeBitShiftLeft
  | .TokenIdBitShiftRight => .BinOpTypeBitShiftRight
  | .TokenIdPlus => .BinOpTypeAdd
  | .TokenIdDash => .BinOpTypeSub
  | .TokenIdStar => .BinOpTypeMult
  | .TokenIdSlash => .BinOpTypeDiv
  | .TokenIdPercent => .BinOpTypeMod
  | .TokenIdDoubleQuestion => .BinOpTypeUnwrapMaybe
  | _ => .BinOpTypeInvalid

/-- Modelled from the spec: whether a token is an operator at a binary level, levels being
those of section 4.4 (`BinOpType.level`). -/
def is_bin_op_at (level : Nat) (id : TokenId) : Bool :=
  decide (tok_to_bin_op id ≠ .BinOpTypeInvalid ∧ (tok_to_bin_op id).level = level)

/-- Modelled from the spec: the prefix operator a token denotes (level 12 of section 4.4:
boolean-not, bitwise-not, negation, address-of, dereference), `PrefixOpInvalid` for a token
that is none. Const-address-of is address-of followed by the keyword `const`. -/
def tok_to_prefix_op : TokenId → PrefixOp
  | .TokenIdBang => .PrefixOpBoolNot
  | .TokenIdTilde => .PrefixOpBinNot
  | .TokenIdDash => .PrefixOpNegation
  | .TokenIdAmpersand => .PrefixOpAddressOf
  | .TokenIdStar => .PrefixOpDereference
  | _ => .PrefixOpInvalid

/-- Modelled from the spec: the source position of a token. -/
def Token.pos (t : Token) : SrcPos :=
  ⟨t.line, t.column⟩

mutual
/-- Modelled from the spec: level 14 of section 4.4, a primary expression: a literal, a
symbol, or a parenthesized expression (which yields the node of the expression inside).
Struct-value construction, inline assembly and the compiler-intrinsic forms are left out of
the model. -/
def ast_parse_primary_expr : Nat → ParseContext → List Token → ParseResult
  | 0, _, _ => .out_of_fuel
  | _ + 1, _, [] => .syntax_error none
  | fuel + 1, pc, t :: rest =>
    match t.id with
    | .TokenIdNumberLiteral =>
      .ok (ast_create_node pc .NodeTypeNumberLiteral t.line t.column
        (some (.number_literal (pc.number_literal t.lexeme)))) rest
    | .TokenIdStringLiteral =>
      .ok (ast_create_node pc .NodeTypeStringLiteral t.line t.column
        (some (.string_literal (pc.string_literal t.lexeme)))) rest
    | .TokenIdCharLiteral =>
      .ok (ast_create_node pc .NodeTypeCharLiteral t.line t.column
        (some (.char_literal (pc.char_literal t.lexeme)))) rest
    | .TokenIdKeywordTrue =>
      .ok (ast_create_node pc .NodeTypeBoolLiteral t.line t.column
        (some (.bool_literal true))) rest
    | .TokenIdKeywordFalse =>
      .ok (ast_create_node pc .NodeTypeBoolLiteral t.line t.column
        (some (.bool_literal false))) rest
    | .TokenIdKeywordNull =>
      .ok (ast_create_node pc .NodeTypeNullLiteral t.line t.column none) rest
    | .TokenIdKeywordVoid =>
      .ok (ast_create_node pc .NodeTypeVoid t.line t.column none) rest
    | .TokenIdKeywordUnreachable =>
      .ok (ast_create_node pc .NodeTypeUnreachable t.line t.column none) rest
    | .TokenIdSymbol =>
      .ok (ast_create_node pc .NodeTypeSymbol t.line t.column (some (.symbol t.lexeme))) rest
    | .TokenIdLParen =>
      match ast_parse_bin_op_expr fuel pc 1 rest with
      | .ok node (t2 :: rest2) =>
        if t2.id = .TokenIdRParen then .ok node rest2 else .syntax_error (some t2)
      | .ok _ [] => .syntax_error none
      | e => e
    | _ => .syntax_error (some t)
/-- Modelled from the spec: the arguments of a function call, after the opening
parenthesis: expressions separated by commas, up to the closing parenthesis, kept in
order. `first` is the position of the first token of the call. -/
def ast_parse_fn_call_params : Nat → ParseContext → SrcPos → AstNode → List AstNode →
    List Token → ParseResult
  | 0, _, _, _, _, _ => .out_of_fuel
  | _ + 1, _, _, _, _, [] => .syntax_error none
  | fuel + 1, pc, first, fn_ref_expr, params, t :: rest =>
    if t.id = .TokenIdRParen then
      .ok (ast_create_node pc .NodeTypeFnCallExpr first.line first.column
        (some (.fn_call_expr fn_ref_expr params false))) rest
    else
      match ast_parse_bin_op_expr fuel pc 1 (t :: rest) with
      | .ok arg (t2 :: rest2) =>
        if t2.id = .TokenIdRParen then
          .ok (ast_create_node pc .NodeTypeFnCallExpr first.line first.column
            (some (.fn_call_expr fn_ref_expr (params ++ [arg]) false))) rest2
        else if t2.id = .TokenIdComma then
          ast_parse_fn_call_params fuel pc first fn_ref_expr (params ++ [arg]) rest2
        else .syntax_error (some t2)
      | .ok _ [] => .syntax_error none
      | e => e
/-- Modelled from the spec: the rest of a slice, after the start expression and the
ellipsis: an optional end expression, the closing bracket, and an optional `const`. `first`
is the position of the first token of the slice expression. -/
def ast_parse_slice_rest : Nat → ParseContext → SrcPos → AstNode → AstNode → List Token →
    ParseResult
  | 0, _, _, _, _, _ => .out_of_fuel
  | _ + 1, _, _, _, _, [] => .syntax_error none
  | fuel + 1, pc, first, array_ref_expr, start, t :: rest =>
    if t.id = .TokenIdRBracket then
      match rest with
      | t2 :: rest2 =>
        if t2.id = .TokenIdKeywordConst then
          .ok (ast_create_node pc .NodeTypeSliceExpr first.line first.column
            (some (.slice_expr array_ref_expr start none true))) rest2
        else
          .ok (ast_create_node pc .NodeTypeSliceExpr first.line first.column
            (some (.slice_expr array_ref_expr start none false))) (t2 :: rest2)
      | [] =>
        .ok (ast_create_node pc .NodeTypeSliceExpr first.line first.column
          (some (.slice_expr array_ref_expr start none false))) []
    else
      match ast_parse_bin_op_expr fuel pc 1 (t :: rest) with
      | .ok end_expr (t2 :: t3 :: rest3) =>
        if t2.id = .TokenIdRBracket then
          if t3.id = .TokenIdKeywordConst then
            .ok (ast_create_node pc .NodeTypeSliceExpr first.line first.column
              (some (.slice_expr array_ref_expr start (some end_expr) true))) rest3
          else
            .ok (ast_create_node pc .NodeTypeSliceExpr first.line first.column
              (some (.slice_expr array_ref_expr start (some end_expr) false))) (t3 :: rest3)
        else .syntax_error (some t2)
      | .ok end_expr [t2] =>
        if t2.id = .TokenIdRBracket then
          .ok (ast_create_node pc .NodeTypeSliceExpr first.line first.column
            (some (.slice_expr array_ref_expr start (some end_expr) false))) []
        else .syntax_error (some t2)
      | .ok _ [] => .syntax_error none
      | e => e
/-- Modelled from the spec: the postfix chain of level 13: while the next token opens a
function call, an index or slice, or a field access, the suffix is applied to the expression
read so far, left to right and in any order. `first` is the position of the first token of
the postfix expression, with which every node of the chain is stamped. -/
def ast_parse_postfix_chain : Nat → ParseContext → SrcPos → AstNode → List Token →
    ParseResult
  | 0, _, _, _, _ => .out_of_fuel
  | _ + 1, _, _, lhs, [] => .ok lhs []
  | fuel + 1, pc, first, lhs, t :: rest =>
    match t.id with
    | .TokenIdLParen =>
      match ast_parse_fn_call_params fuel pc first lhs [] rest with
      | .ok call rest2 => ast_parse_postfix_chain fuel pc first call rest2
      | e => e
    | .TokenIdLBracket =>
      match ast_parse_bin_op_expr fuel pc 1 rest with
      | .ok subscript (t2 :: rest2) =>
        if t2.id = .TokenIdRBracket then
          ast_parse_postfix_chain fuel pc first
            (ast_create_node pc .NodeTypeArrayAccessExpr first.line first.column
              (some (.array_access_expr lhs subscript))) rest2
        else if t2.id = .TokenIdEllipsis then
          match ast_parse_slice_rest fuel pc first lhs subscript rest2 with
          | .ok slice rest3 => ast_parse_postfix_chain fuel pc first slice rest3
          | e => e
        else .syntax_error (some t2)
      | .ok _ [] => .syntax_error none
      | e => e
    | .TokenIdDot =>
      match rest with
      | t2 :: rest2 =>
        if t2.id = .TokenIdSymbol then
          ast_parse_postfix_chain fuel pc first
            (ast_create_node pc .NodeTypeFieldAccessExpr first.line first.column
              (some (.field_access_expr lhs t2.lexeme))) rest2
        else .syntax_error (some t2)
      | [] => .syntax_error none
    | _ => .ok lhs (t :: rest)
/-- Modelled from the spec: level 13 of section 4.4: a primary expression followed by its
postfix chain. -/
def ast_parse_postfix_expr : Nat → ParseContext → List Token → ParseResult
  | 0, _, _ => .out_of_fuel
  | _ + 1, _, [] => .syntax_error none
  | fuel + 1, pc, t :: rest =>
    match ast_parse_primary_expr fuel pc (t :: rest) with
    | .ok primary rest2 => ast_parse_postfix_chain fuel pc t.pos primary rest2
    | e => e
/-- Modelled from the spec: level 12 of section 4.4: the prefix operators, right-associative:
an operator token is read and its operand is read at this same level, so that the operator
nearest the operand is applied first. Const-address-of is the address-of token followed by
the keyword `const`. -/
def ast_parse_prefix_op_expr : Nat → ParseContext → List Token → ParseResult
  | 0, _, _ => .out_of_fuel
  | _ + 1, _, [] => .syntax_error none
  | fuel + 1, pc, t :: rest =>
    if tok_to_prefix_op t.id = .PrefixOpInvalid then
      ast_parse_postfix_expr fuel pc (t :: rest)
    else
      match rest with
      | t2 :: rest2 =>
        if tok_to_prefix_op t.id = .PrefixOpAddressOf ∧ t2.id = .TokenIdKeywordConst then
          match ast_parse_prefix_op_expr fuel pc rest2 with
          | .ok operand rest3 =>
            .ok (ast_create_node pc .NodeTypePrefixOpExpr t.line t.column
              (some (.prefix_op_expr .PrefixOpConstAddressOf operand))) rest3
          | e => e
        else
          match ast_parse_prefix_op_expr fuel pc (t2 :: rest2) with
          | .ok operand rest3 =>
            .ok (ast_create_node pc .NodeTypePrefixOpExpr t.line t.column
              (some (.prefix_op_expr (tok_to_prefix_op t.id) operand))) rest3
          | e => e
      | [] => .syntax_error none
/-- Modelled from the spec: a binary level of section 4.4 (1 to 11): "parse next-higher
level", then the operators of this level (`ast_parse_bin_op_rest`). The level above 11 is
the prefix level. Level 11, optional-unwrap, is read as the other binary levels are: its
operator is the `BinOpType` `BinOpTypeUnwrapMaybe` and its node an `AstNodeBinOpExpr` with
two operands. -/
def ast_parse_bin_op_expr : Nat → ParseContext → Nat → List Token → ParseResult
  | 0, _, _, _ => .out_of_fuel
  | _ + 1, _, _, [] => .syntax_error none
  | fuel + 1, pc, level, t :: rest =>
    match (if level < 11 then ast_parse_bin_op_expr fuel pc (level + 1) (t :: rest)
           else ast_parse_prefix_op_expr fuel pc (t :: rest)) with
    | .ok lhs rest2 => ast_parse_bin_op_rest fuel pc level t.pos lhs rest2
    | e => e
/-- Modelled from the spec: the loop of a binary level of section 4.4: "while the next token
is an operator at this level, consume it and parse the right-hand operand": for a
left-associative level (2 to 11) the operand is read as the left one was, at the next-higher
level, and the node built so far becomes the left operand; for the assignment level (1),
which is right-associative, the operand is read by recursing into this level. `first` is the
position of the first token of the expression of this level; a binary-operation node is
stamped with the position of its first token (section 3). -/
def ast_parse_bin_op_rest : Nat → ParseContext → Nat → SrcPos → AstNode → List Token →
    ParseResult
  | 0, _, _, _, _, _ => .out_of_fuel
  | _ + 1, _, _, _, lhs, [] => .ok lhs []
  | fuel + 1, pc, level, first, lhs, t :: rest =>
    if is_bin_op_at level t.id then
      match (if level = 1 then ast_parse_bin_op_expr fuel pc 1 rest
             else if level < 11 then ast_parse_bin_op_expr fuel pc (level + 1) rest
             else ast_parse_prefix_op_expr fuel pc rest) with
      | .ok rhs rest2 =>
        ast_parse_bin_op_rest fuel pc level first
          (ast_create_node pc .NodeTypeBinOpExpr first.line first.column
            (some (.bin_op_expr lhs (tok_to_bin_op t.id) rhs))) rest2
      | e => e
    else .ok lhs (t :: rest)
end

/-- Modelled from the spec: the expression rule of the parser behind `ast_parse` (declared
at parser.hpp 432; its body is generated by parsergen.cpp, outside the header): an
expression is read at the lowest level, assignment (section 4.4). `ast_parse` itself reads a
file, a list of top-level declarations whose token-level grammar the specification leaves
open (section 9); every expression of a file is read by this rule. The counter that bounds
the recursion is sixteen for every token and sixteen more: a token is read after at most
fourteen nested rules. -/
def ast_parse_expression (pc : ParseContext) (tokens : List Token) : ParseResult :=
  ast_parse_bin_op_expr (16 * (tokens.length + 1)) pc 1 tokens


/-- A result that is not the exhaustion of the counter and leaves at most `n` tokens. -/
def ParseResult.within (n : Nat) : ParseResult → Prop
  | .ok _ rest => rest.length ≤ n
  | .syntax_error _ => True
  | .out_of_fuel => False

/-! ## Theorems -/

/-- The precedence level does not decrease along the declared order of the operators. -/
theorem level_mono_of_ordinal_le :
    ∀ x y : BinOpType, x ≠ .BinOpTypeInvalid → x.ordinal ≤ y.ordinal → x.level ≤ y.level := by
  decide

/-- An operator declared after a real operator is a real operator. -/
theorem ne_invalid_of_ordinal_le :
    ∀ x y : BinOpType, x ≠ .BinOpTypeInvalid → x.ordinal ≤ y.ordinal →
      y ≠ .BinOpTypeInvalid := by
  decide

/-- C10. The declared order of `BinOpType` agrees with the eleven binary precedence levels
of the specification: the enumerators are numbered in declared order without repetition;
among the operators other than `BinOpTypeInvalid` the level never decreases as the ordinal
grows; hence the operators of one level are contiguous in the declaration; every level from
1 to 11 has an operator; and the levels hold 13, 1, 1, 6, 1, 1, 1, 2, 2, 3 and 1 operators
(thirteen assignment forms, six comparisons, two shifts, two additive and three
multiplicative operators). -/
theorem bin_op_order_agrees_with_levels :
    (∀ x y : BinOpType, x.ordinal = y.ordinal → x = y) ∧
    (∀ x y : BinOpType, x ≠ .BinOpTypeInvalid → y ≠ .BinOpTypeInvalid →
      x.ordinal ≤ y.ordinal → x.level ≤ y.level) ∧
    (∀ x y z : BinOpType, x ≠ .BinOpTypeInvalid → x.ordinal ≤ y.ordinal →
      y.ordinal ≤ z.ordinal → x.level = z.level → y.level = x.level) ∧
    (∀ l : Nat, 1 ≤ l → l ≤ 11 → ∃ op : BinOpType, op ≠ .BinOpTypeInvalid ∧ op.level = l) ∧
    (List.range 12).map (fun l => (Finset.univ.filter (fun op : BinOpType =>
        op ≠ .BinOpTypeInvalid ∧ op.level = l)).card) =
      [0, 13, 1, 1, 6, 1, 1, 1, 2, 2, 3, 1] := by
  refine ⟨by decide, fun x y hx _ h => level_mono_of_ordinal_le x y hx h, ?_, ?_, by decide⟩
  · intro x y z hx hxy hyz hlev
    have h1 := level_mono_of_ordinal_le x y hx hxy
    have h2 := level_mono_of_ordinal_le y z (ne_invalid_of_ordinal_le x y hx hxy) hyz
    omega
  · intro l h1 h11
    interval_cases l
    · exact ⟨.BinOpTypeAssign, by decide, rfl⟩
    · exact ⟨.BinOpTypeBoolOr, by decide, rfl⟩
    · exact ⟨.BinOpTypeBoolAnd, by decide, rfl⟩
    · exact ⟨.BinOpTypeCmpEq, by decide, rfl⟩
    · exact ⟨.BinOpTypeBinOr, by decide, rfl⟩
    · exact ⟨.BinOpTypeBinXor, by decide, rfl⟩
    · exact ⟨.BinOpTypeBinAnd, by decide, rfl⟩
    · exact ⟨.BinOpTypeBitShiftLeft, by decide, rfl⟩
    · exact ⟨.BinOpTypeAdd, by decide, rfl⟩
    · exact ⟨.BinOpTypeMult, by decide, rfl⟩
    · exact ⟨.BinOpTypeUnwrapMaybe, by decide, rfl⟩

/-- C10 at two operators: `BinOpTypeAdd` is declared before `BinOpTypeMult` and its level,
9, is below the level of `BinOpTypeMult`, 10. -/
theorem bin_op_order_add_mult :
    BinOpType.BinOpTypeAdd.ordinal ≤ BinOpType.BinOpTypeMult.ordinal ∧
    BinOpType.BinOpTypeAdd.level ≤ BinOpType.BinOpTypeMult.level :=
  ⟨by decide, bin_op_order_agrees_with_levels.2.1 .BinOpTypeAdd .BinOpTypeMult
    (by decide) (by decide) (by decide)⟩

/-- C6, as it fails on the header: `AstNodeVariableDeclaration` has the five members
`symbol`, `is_const`, `visib_mod`, `type` and `expr` and none named `directives`, and the
node struct `AstNode` around it has none either: a variable declaration has no place for a
directive list. -/
theorem variable_declaration_has_no_directives :
    struct_members .AstNodeVariableDeclaration =
      [("Buf", "symbol"), ("bool", "is_const"), ("VisibMod", "visib_mod"),
       ("AstNode *", "type"), ("AstNode *", "expr")] ∧
    has_member .AstNodeVariableDeclaration "directives" = false ∧
    has_directives .AstNodeVariableDeclaration = false ∧
    has_member .AstNode "directives" = false := by
  decide

/-- C6, amended. The structs of the header that declare a member `directives` (of type
`ZigList<AstNode *> *`) are exactly six: function prototype, extern block, use declaration,
root export declaration, struct declaration and struct field. A function definition and a
function declaration reach the list of their prototype through their member `fn_proto`. -/
theorem directives_members :
    (∀ s : StructName, has_directives s = true ↔
      s = .AstNodeFnProto ∨ s = .AstNodeExternBlock ∨ s = .AstNodeUse ∨
      s = .AstNodeRootExportDecl ∨ s = .AstNodeStructDecl ∨ s = .AstNodeStructField) ∧
    (∀ s : StructName, has_member s "directives" = has_directives s) ∧
    ("AstNode *", "fn_proto") ∈ struct_members .AstNodeFnDef ∧
    ("AstNode *", "fn_proto") ∈ struct_members .AstNodeFnDecl := by
  decide

/-- C9, as it fails on the header: the struct keeps the discriminant and the union side by
side, so a node whose discriminant is `NodeTypeRoot` while the member written in `data` is
`symbol` is a value of the struct, and its payload is not the one of its discriminant. -/
theorem mismatched_node_payload :
    mismatched_node.type = .NodeTypeRoot ∧
    mismatched_node.data.map AstNodeData.member = some .symbol ∧
    payload_member .NodeTypeRoot = some .root ∧
    ¬ mismatched_node.payload_matches := by
  decide

/-- C9, amended. `NodeType` has 42 discriminants and `AstNode::data` 37 members; every member
belongs to exactly one discriminant; a discriminant has at most one member (`payload_member`
is a function), and the five without one are `NodeTypeUnreachable`, `NodeTypeVoid`,
`NodeTypeNullLiteral`, `NodeTypeBreak` and `NodeTypeContinue`. -/
theorem payload_member_bijective :
    Fintype.card NodeType = 42 ∧
    Fintype.card DataMember = 37 ∧
    (∀ (t : NodeType) (m m2 : DataMember),
      payload_member t = some m → payload_member t = some m2 → m = m2) ∧
    (∀ m : DataMember, ∃! t : NodeType, payload_member t = some m) ∧
    (∀ t : NodeType, payload_member t = none ↔
      t = .NodeTypeUnreachable ∨ t = .NodeTypeVoid ∨ t = .NodeTypeNullLiteral ∨
      t = .NodeTypeBreak ∨ t = .NodeTypeContinue) := by
  refine ⟨by decide, by decide, ?_, ?_, by decide⟩
  · intro t m m2 h1 h2
    exact Option.some.inj (h1.symm.trans h2)
  · intro m
    refine ⟨member_node_type m, ?_, ?_⟩
    · revert m
      decide
    · revert m
      decide

/-! ### The expression rule always answers -/

/-- A bound on the tokens left may be relaxed. -/
theorem within_mono {n m : Nat} {r : ParseResult} (h : r.within n) (hnm : n ≤ m) :
    r.within m := by
  cases r <;> simp_all [ParseResult.within]
  omega

/-- What `within` says of a successful result. -/
theorem within_ok {n : Nat} {node : AstNode} {rest : List Token}
    (h : (ParseResult.ok node rest).within n) : rest.length ≤ n := h

/-- With a counter of at least sixteen for every token plus the depth of the rule, no rule
of the expression grammar exhausts the counter, and none returns more tokens than it was
given. -/
theorem parse_within : ∀ fuel : Nat,
    (∀ pc ts, 16 * ts.length + 1 ≤ fuel →
      (ast_parse_primary_expr fuel pc ts).within ts.length) ∧
    (∀ pc first f ps ts, 16 * ts.length + 15 ≤ fuel →
      (ast_parse_fn_call_params fuel pc first f ps ts).within ts.length) ∧
    (∀ pc first a st ts, 16 * ts.length + 15 ≤ fuel →
      (ast_parse_slice_rest fuel pc first a st ts).within ts.length) ∧
    (∀ pc first lhs ts, 16 * ts.length + 1 ≤ fuel →
      (ast_parse_postfix_chain fuel pc first lhs ts).within ts.length) ∧
    (∀ pc ts, 16 * ts.length + 2 ≤ fuel →
      (ast_parse_postfix_expr fuel pc ts).within ts.length) ∧
    (∀ pc ts, 16 * ts.length + 3 ≤ fuel →
      (ast_parse_prefix_op_expr fuel pc ts).within ts.length) ∧
    (∀ pc level ts, 16 * ts.length + (15 - level) ≤ fuel → level ≤ 11 →
      (ast_parse_bin_op_expr fuel pc level ts).within ts.length) ∧
    (∀ pc level first lhs ts, 16 * ts.length + 1 ≤ fuel → level ≤ 11 →
      (ast_parse_bin_op_rest fuel pc level first lhs ts).within ts.length) := by
  intro fuel
  induction fuel with
  | zero =>
    refine ⟨?_, ?_, ?_, ?_, ?_, ?_, ?_, ?_⟩ <;> intros <;> omega
  | succ fuel ih =>
    obtain ⟨ihprim, ihparams, ihslice, ihchain, ihpost, ihpre, ihbin, ihrest⟩ := ih
    refine ⟨?_, ?_, ?_, ?_, ?_, ?_, ?_, ?_⟩
    · intro pc ts hf
      cases ts with
      | nil => simp [ast_parse_primary_expr, ParseResult.within]
      | cons t rest =>
        simp only [ast_parse_primary_expr]
        have hb := ihbin pc 1 rest (by simp at hf; omega) (by omega)
        generalize ast_parse_bin_op_expr fuel pc 1 rest = r at hb ⊢
        split <;> try (simp [ParseResult.within]; done)
        rcases r with ⟨node, _ | ⟨t2, rest2⟩⟩ | _ | _
        · simp [ParseResult.within]
        · simp only []
          split <;> simp_all [ParseResult.within]
          omega
        · simp [ParseResult.within]
        · simp [ParseResult.within] at hb
    · intro pc first f ps ts hf
      cases ts with
      | nil => simp [ast_parse_fn_call_params, ParseResult.within]
      | cons t rest =>
        simp only [ast_parse_fn_call_params]
        split
        · simp [ParseResult.within]
        · have hb := ihbin pc 1 (t :: rest) (by simp at hf ⊢; omega) (by omega)
          generalize ast_parse_bin_op_expr fuel pc 1 (t :: rest) = r at hb ⊢
          rcases r with ⟨node, _ | ⟨t2, rest2⟩⟩ | _ | _
          · simp [ParseResult.within]
          · simp only []
            have hl := within_ok hb
            simp at hl
            split
            · simp [ParseResult.within]; omega
            · split
              · have hp := ihparams pc first f (ps ++ [node]) rest2 (by simp at hf; omega)
                exact within_mono hp (by simp; omega)
              · simp [ParseResult.within]
          · simp [ParseResult.within]
          · simp [ParseResult.within] at hb
    · intro pc first arr st ts hf
      cases ts with
      | nil => simp [ast_parse_slice_rest, ParseResult.within]
      | cons t rest =>
        simp only [ast_parse_slice_rest]
        split
        · split
          · split <;> simp [ParseResult.within]
            omega
          · simp [ParseResult.within]
        · have hb := ihbin pc 1 (t :: rest) (by simp at hf ⊢; omega) (by omega)
          generalize ast_parse_bin_op_expr fuel pc 1 (t :: rest) = r at hb ⊢
          rcases r with ⟨node, _ | ⟨t2, _ | ⟨t3, rest3⟩⟩⟩ | _ | _
          · simp [ParseResult.within]
          · simp only []
            split <;> simp [ParseResult.within]
          · simp only []
            have hl := within_ok hb
            simp at hl
            split
            · split <;> simp [ParseResult.within] <;> omega
            · simp [ParseResult.within]
          · simp [ParseResult.within]
          · simp [ParseResult.within] at hb
    · intro pc first lhs ts hf
      cases ts with
      | nil => simp [ast_parse_postfix_chain, ParseResult.within]
      | cons t rest =>
        simp only [ast_parse_postfix_chain]
        simp only [List.length_cons] at hf
        split
        · have hp := ihparams pc first lhs [] rest (by omega)
          generalize ast_parse_fn_call_params fuel pc first lhs [] rest = r at hp ⊢
          rcases r with ⟨node, rest2⟩ | _ | _
          · simp only []
            have hl := within_ok hp
            exact within_mono (ihchain pc first node rest2 (by omega)) (by simp; omega)
          · simp [ParseResult.within]
          · simp [ParseResult.within] at hp
        · have hb := ihbin pc 1 rest (by omega) (by omega)
          generalize ast_parse_bin_op_expr fuel pc 1 rest = r at hb ⊢
          rcases r with ⟨node, _ | ⟨t2, rest2⟩⟩ | _ | _
          · simp [ParseResult.within]
          · simp only []
            have hl := within_ok hb
            simp at hl
            split
            · exact within_mono (ihchain pc first _ rest2 (by omega)) (by simp; omega)
            · split
              · have hs := ihslice pc first lhs node rest2 (by omega)
                generalize ast_parse_slice_rest fuel pc first lhs node rest2 = r2 at hs ⊢
                rcases r2 with ⟨node3, rest3⟩ | _ | _
                · simp only []
                  have hl3 := within_ok hs
                  exact within_mono (ihchain pc first node3 rest3 (by omega)) (by simp; omega)
                · simp [ParseResult.within]
                · simp [ParseResult.within] at hs
              · simp [ParseResult.within]
          · simp [ParseResult.within]
          · simp [ParseResult.within] at hb
        · split
          · split
            · rename_i t2 rest2 _
              exact within_mono (ihchain pc first _ rest2 (by simp at hf; omega))
                (by simp; omega)
            · simp [ParseResult.within]
          · simp [ParseResult.within]
        · simp [ParseResult.within]
    · intro pc ts hf
      cases ts with
      | nil => simp [ast_parse_postfix_expr, ParseResult.within]
      | cons t rest =>
        simp only [ast_parse_postfix_expr]
        have hp := ihprim pc (t :: rest) (by omega)
        generalize ast_parse_primary_expr fuel pc (t :: rest) = r at hp ⊢
        rcases r with ⟨node, rest2⟩ | _ | _
        · simp only []
          have hl := within_ok hp
          exact within_mono (ihchain pc t.pos node rest2 (by omega)) hl
        · simp [ParseResult.within]
        · simp [ParseResult.within] at hp
    · intro pc ts hf
      cases ts with
      | nil => simp [ast_parse_prefix_op_expr, ParseResult.within]
      | cons t rest =>
        simp only [ast_parse_prefix_op_expr]
        split
        · exact ihpost pc (t :: rest) (by omega)
        · split
          · rename_i t2 rest2
            simp only [List.length_cons] at hf
            split
            · have hp := ihpre pc rest2 (by omega)
              generalize ast_parse_prefix_op_expr fuel pc rest2 = r at hp ⊢
              rcases r with ⟨node, rest3⟩ | _ | _
              · have hl := within_ok hp
                simp [ParseResult.within]; omega
              · simp [ParseResult.within]
              · simp [ParseResult.within] at hp
            · have hp := ihpre pc (t2 :: rest2) (by simp; omega)
              generalize ast_parse_prefix_op_expr fuel pc (t2 :: rest2) = r at hp ⊢
              rcases r with ⟨node, rest3⟩ | _ | _
              · have hl := within_ok hp
                simp at hl
                simp [ParseResult.within]; omega
              · simp [ParseResult.within]
              · simp [ParseResult.within] at hp
          · simp [ParseResult.within]
    · intro pc level ts hf hlev
      cases ts with
      | nil => simp [ast_parse_bin_op_expr, ParseResult.within]
      | cons t rest =>
        simp only [ast_parse_bin_op_expr]
        have hop : (if level < 11 then ast_parse_bin_op_expr fuel pc (level + 1) (t :: rest)
            else ast_parse_prefix_op_expr fuel pc (t :: rest)).within (t :: rest).length := by
          split
          · exact ihbin pc (level + 1) (t :: rest) (by omega) (by omega)
          · exact ihpre pc (t :: rest) (by omega)
        generalize (if level < 11 then ast_parse_bin_op_expr fuel pc (level + 1) (t :: rest)
            else ast_parse_prefix_op_expr fuel pc (t :: rest)) = r at hop ⊢
        rcases r with ⟨node, rest2⟩ | _ | _
        · simp only []
          have hl := within_ok hop
          exact within_mono (ihrest pc level t.pos node rest2 (by omega) hlev) hl
        · simp [ParseResult.within]
        · simp [ParseResult.within] at hop
    · intro pc level first lhs ts hf hlev
      cases ts with
      | nil => simp [ast_parse_bin_op_rest, ParseResult.within]
      | cons t rest =>
        simp only [ast_parse_bin_op_rest]
        simp only [List.length_cons] at hf
        split
        · have hop : (if level = 1 then ast_parse_bin_op_expr fuel pc 1 rest
              else if level < 11 then ast_parse_bin_op_expr fuel pc (level + 1) rest
              else ast_parse_prefix_op_expr fuel pc rest).within rest.length := by
            split
            · exact ihbin pc 1 rest (by omega) (by omega)
            · split
              · exact ihbin pc (level + 1) rest (by omega) (by omega)
              · exact ihpre pc rest (by omega)
          generalize (if level = 1 then ast_parse_bin_op_expr fuel pc 1 rest
              else if level < 11 then ast_parse_bin_op_expr fuel pc (level + 1) rest
              else ast_parse_prefix_op_expr fuel pc rest) = r at hop ⊢
          rcases r with ⟨node, rest2⟩ | _ | _
          · simp only []
            have hl := within_ok hop
            exact within_mono (ihrest pc level first _ rest2 (by omega) hlev) (by simp; omega)
          · simp [ParseResult.within]
          · simp [ParseResult.within] at hop
        · simp [ParseResult.within]

/-- The expression rule gives an answer on every token sequence: the counter it starts
with is never exhausted. -/
theorem ast_parse_expression_total (pc : ParseContext) (tokens : List Token) :
    ast_parse_expression pc tokens ≠ .out_of_fuel := by
  have h := (parse_within (16 * (tokens.length + 1))).2.2.2.2.2.2.1 pc 1 tokens
    (by omega) (by omega)
  unfold ast_parse_expression
  intro hc
  rw [hc] at h
  exact h

/-! ### Precedence and associativity -/

set_option maxHeartbeats 4000000 in
/-- Whenever one binary operator stands on a lower level than another, the operator of the
higher level binds tighter on either side: `a p b q c` is read as `p(a, q(b, c))` and
`a q b p c` as `p(q(a, b), c)`, for all symbols and positions. -/
theorem higher_level_binds_tighter (pc : ParseContext) (a b c x2 x4 : Buf)
    (l1 c1 l2 c2 l3 c3 l4 c4 l5 c5 : Int) (p q : TokenId)
    (hp : 1 ≤ (tok_to_bin_op p).level)
    (hpq : (tok_to_bin_op p).level < (tok_to_bin_op q).level) :
    ast_parse_expression pc
        [⟨.TokenIdSymbol, l1, c1, a⟩, ⟨p, l2, c2, x2⟩, ⟨.TokenIdSymbol, l3, c3, b⟩,
         ⟨q, l4, c4, x4⟩, ⟨.TokenIdSymbol, l5, c5, c⟩] =
      .ok (.mk .NodeTypeBinOpExpr l1 c1 none pc.owner (some (.bin_op_expr
            (.mk .NodeTypeSymbol l1 c1 none pc.owner (some (.symbol a)))
            (tok_to_bin_op p)
            (.mk .NodeTypeBinOpExpr l3 c3 none pc.owner (some (.bin_op_expr
              (.mk .NodeTypeSymbol l3 c3 none pc.owner (some (.symbol b)))
              (tok_to_bin_op q)
              (.mk .NodeTypeSymbol l5 c5 none pc.owner (some (.symbol c))))))))) [] ∧
    ast_parse_expression pc
        [⟨.TokenIdSymbol, l1, c1, a⟩, ⟨q, l2, c2, x2⟩, ⟨.TokenIdSymbol, l3, c3, b⟩,
         ⟨p, l4, c4, x4⟩, ⟨.TokenIdSymbol, l5, c5, c⟩] =
      .ok (.mk .NodeTypeBinOpExpr l1 c1 none pc.owner (some (.bin_op_expr
            (.mk .NodeTypeBinOpExpr l1 c1 none pc.owner (some (.bin_op_expr
              (.mk .NodeTypeSymbol l1 c1 none pc.owner (some (.symbol a)))
              (tok_to_bin_op q)
              (.mk .NodeTypeSymbol l3 c3 none pc.owner (some (.symbol b))))))
            (tok_to_bin_op p)
            (.mk .NodeTypeSymbol l5 c5 none pc.owner (some (.symbol c)))))) [] := by
  cases p <;> first
    | exact absurd hp (by decide)
    | (cases q <;> first
        | exact absurd hpq (by decide)
        | exact ⟨rfl, rfl⟩)

/-- C1. The multiplicative level binds tighter than the additive level. The token `+`
denotes `BinOpTypeAdd`, of level 9, and `*` denotes `BinOpTypeMult`, of level 10. For all
symbols `a`, `b`, `c`, whatever the positions of the five tokens, the expression rule reads
`a + b * c` to the end and yields the binary-operation node with `bin_op = BinOpTypeAdd`,
`op1 = Symbol(a)` and `op2` the binary-operation node with `bin_op = BinOpTypeMult`,
`op1 = Symbol(b)`, `op2 = Symbol(c)`; and it reads `a * b + c` as the `BinOpTypeAdd` node
whose `op1` is the `BinOpTypeMult` node over `a` and `b` and whose `op2` is `Symbol(c)`, so
the product is an operand of the sum on whichever side it stands. The same holds of every
two binary operators of which the second stands on a higher level than the first. -/
theorem ast_parse_add_mult (pc : ParseContext) (a b c x2 x4 : Buf)
    (l1 c1 l2 c2 l3 c3 l4 c4 l5 c5 : Int) :
    (tok_to_bin_op .TokenIdPlus = .BinOpTypeAdd ∧ tok_to_bin_op .TokenIdStar = .BinOpTypeMult ∧
      BinOpType.BinOpTypeAdd.level = 9 ∧ BinOpType.BinOpTypeMult.level = 10) ∧
    ast_parse_expression pc
        [⟨.TokenIdSymbol, l1, c1, a⟩, ⟨.TokenIdPlus, l2, c2, x2⟩, ⟨.TokenIdSymbol, l3, c3, b⟩,
         ⟨.TokenIdStar, l4, c4, x4⟩, ⟨.TokenIdSymbol, l5, c5, c⟩] =
      .ok (.mk .NodeTypeBinOpExpr l1 c1 none pc.owner (some (.bin_op_expr
            (.mk .NodeTypeSymbol l1 c1 none pc.owner (some (.symbol a)))
            .BinOpTypeAdd
            (.mk .NodeTypeBinOpExpr l3 c3 none pc.owner (some (.bin_op_expr
              (.mk .NodeTypeSymbol l3 c3 none pc.owner (some (.symbol b)))
              .BinOpTypeMult
              (.mk .NodeTypeSymbol l5 c5 none pc.owner (some (.symbol c))))))))) [] ∧
    ast_parse_expression pc
        [⟨.TokenIdSymbol, l1, c1, a⟩, ⟨.TokenIdStar, l2, c2, x2⟩, ⟨.TokenIdSymbol, l3, c3, b⟩,
         ⟨.TokenIdPlus, l4, c4, x4⟩, ⟨.TokenIdSymbol, l5, c5, c⟩] =
      .ok (.mk .NodeTypeBinOpExpr l1 c1 none pc.owner (some (.bin_op_expr
            (.mk .NodeTypeBinOpExpr l1 c1 none pc.owner (some (.bin_op_expr
              (.mk .NodeTypeSymbol l1 c1 none pc.owner (some (.symbol a)))
              .BinOpTypeMult
              (.mk .NodeTypeSymbol l3 c3 none pc.owner (some (.symbol b))))))
            .BinOpTypeAdd
            (.mk .NodeTypeSymbol l5 c5 none pc.owner (some (.symbol c)))))) [] ∧
    (∀ p q : TokenId, 1 ≤ (tok_to_bin_op p).level →
      (tok_to_bin_op p).level < (tok_to_bin_op q).level →
      ast_parse_expression pc
          [⟨.TokenIdSymbol, l1, c1, a⟩, ⟨p, l2, c2, x2⟩, ⟨.TokenIdSymbol, l3, c3, b⟩,
           ⟨q, l4, c4, x4⟩, ⟨.TokenIdSymbol, l5, c5, c⟩] =
        .ok (.mk .NodeTypeBinOpExpr l1 c1 none pc.owner (some (.bin_op_expr
              (.mk .NodeTypeSymbol l1 c1 none pc.owner (some (.symbol a)))
              (tok_to_bin_op p)
              (.mk .NodeTypeBinOpExpr l3 c3 none pc.owner (some (.bin_op_expr
                (.mk .NodeTypeSymbol l3 c3 none pc.owner (some (.symbol b)))
                (tok_to_bin_op q)
                (.mk .NodeTypeSymbol l5 c5 none pc.owner (some (.symbol c))))))))) [] ∧
      ast_parse_expression pc
          [⟨.TokenIdSymbol, l1, c1, a⟩, ⟨q, l2, c2, x2⟩, ⟨.TokenIdSymbol, l3, c3, b⟩,
           ⟨p, l4, c4, x4⟩, ⟨.TokenIdSymbol, l5, c5, c⟩] =
        .ok (.mk .NodeTypeBinOpExpr l1 c1 none pc.owner (some (.bin_op_expr
              (.mk .NodeTypeBinOpExpr l1 c1 none pc.owner (some (.bin_op_expr
                (.mk .NodeTypeSymbol l1 c1 none pc.owner (some (.symbol a)))
                (tok_to_bin_op q)
                (.mk .NodeTypeSymbol l3 c3 none pc.owner (some (.symbol b))))))
              (tok_to_bin_op p)
              (.mk .NodeTypeSymbol l5 c5 none pc.owner (some (.symbol c)))))) []) :=
  ⟨by decide, rfl, rfl, fun p q hp hpq =>
    higher_level_binds_tighter pc a b c x2 x4 l1 c1 l2 c2 l3 c3 l4 c4 l5 c5 p q hp hpq⟩

/-- C2. For all symbols `a`, `b`, `c`, whatever the positions of the five tokens, the
expression rule reads `a = b = c` to the end and yields `Assign(Symbol(a), Assign(Symbol(b),
Symbol(c)))`: the outer node has `bin_op = BinOpTypeAssign` and `op1 = Symbol(a)`, and its
`op2` is the `BinOpTypeAssign` node over `b` and `c`. Assignment is right-associative: the
result is not the left-nested `Assign(Assign(Symbol(a), Symbol(b)), Symbol(c))`. -/
theorem ast_parse_assign_assign (pc : ParseContext) (a b c x2 x4 : Buf)
    (l1 c1 l2 c2 l3 c3 l4 c4 l5 c5 : Int) :
    ast_parse_expression pc
        [⟨.TokenIdSymbol, l1, c1, a⟩, ⟨.TokenIdEq, l2, c2, x2⟩, ⟨.TokenIdSymbol, l3, c3, b⟩,
         ⟨.TokenIdEq, l4, c4, x4⟩, ⟨.TokenIdSymbol, l5, c5, c⟩] =
      .ok (.mk .NodeTypeBinOpExpr l1 c1 none pc.owner (some (.bin_op_expr
            (.mk .NodeTypeSymbol l1 c1 none pc.owner (some (.symbol a)))
            .BinOpTypeAssign
            (.mk .NodeTypeBinOpExpr l3 c3 none pc.owner (some (.bin_op_expr
              (.mk .NodeTypeSymbol l3 c3 none pc.owner (some (.symbol b)))
              .BinOpTypeAssign
              (.mk .NodeTypeSymbol l5 c5 none pc.owner (some (.symbol c))))))))) [] ∧
    ast_parse_expression pc
        [⟨.TokenIdSymbol, l1, c1, a⟩, ⟨.TokenIdEq, l2, c2, x2⟩, ⟨.TokenIdSymbol, l3, c3, b⟩,
         ⟨.TokenIdEq, l4, c4, x4⟩, ⟨.TokenIdSymbol, l5, c5, c⟩] ≠
      .ok (.mk .NodeTypeBinOpExpr l1 c1 none pc.owner (some (.bin_op_expr
            (.mk .NodeTypeBinOpExpr l1 c1 none pc.owner (some (.bin_op_expr
              (.mk .NodeTypeSymbol l1 c1 none pc.owner (some (.symbol a)))
              .BinOpTypeAssign
              (.mk .NodeTypeSymbol l3 c3 none pc.owner (some (.symbol b))))))
            .BinOpTypeAssign
            (.mk .NodeTypeSymbol l5 c5 none pc.owner (some (.symbol c)))))) [] := by
  refine ⟨rfl, ?_⟩
  intro h
  have h2 := h.symm.trans (rfl : ast_parse_expression pc
        [⟨.TokenIdSymbol, l1, c1, a⟩, ⟨.TokenIdEq, l2, c2, x2⟩, ⟨.TokenIdSymbol, l3, c3, b⟩,
         ⟨.TokenIdEq, l4, c4, x4⟩, ⟨.TokenIdSymbol, l5, c5, c⟩] =
      .ok (.mk .NodeTypeBinOpExpr l1 c1 none pc.owner (some (.bin_op_expr
            (.mk .NodeTypeSymbol l1 c1 none pc.owner (some (.symbol a)))
            .BinOpTypeAssign
            (.mk .NodeTypeBinOpExpr l3 c3 none pc.owner (some (.bin_op_expr
              (.mk .NodeTypeSymbol l3 c3 none pc.owner (some (.symbol b)))
              .BinOpTypeAssign
              (.mk .NodeTypeSymbol l5 c5 none pc.owner (some (.symbol c))))))))) [])
  injection h2 with h3 _
  injection h3 with _ _ _ _ _ h4
  injection h4 with h5
  injection h5 with h6 _ _
  injection h6 with h7
  cases h7


end ZigParser
